import Mathlib

/-!
Verification of the kssmath numerical/geometry library.

Shallow embedding of the C++ sources over exact real arithmetic:
`double` values are modelled as `ℝ`, C++ member functions as Lean
functions, exceptions as `Except` error values.  Named constants from
the sources (`Constants<double>::PI`, `numeric_limits<double>::epsilon()`,
`numeric_limits<double>::max()`) are embedded as the exact rational values
the C++ constants denote.
-/

set_option maxHeartbeats 1000000
set_option maxRecDepth 8000

noncomputable section

namespace KssMath

/-- Constant `Constants<double>::PI` from constants.hpp: the literal 3.1415926535897932. -/
def PIdouble : ℝ := 3.1415926535897932

/-- Machine epsilon `std::numeric_limits<double>::epsilon()`, the default epsilon of `closeTo`. -/
def DBL_EPSILON : ℝ := 1 / 2 ^ 52

/-- Largest double `std::numeric_limits<double>::max()`, the sentinel default of the `fbx`
argument of `minimum_value`. -/
def DBL_MAX : ℝ := (2 ^ 53 - 1) * 2 ^ 971

/-- closeto.hpp, specialization for floating point:
`std::fabs(x-y) <= epsilon`. -/
def closeTo (x y epsilon : ℝ) : Prop := |x - y| ≤ epsilon

instance closeTo.instDecidable (x y epsilon : ℝ) : Decidable (closeTo x y epsilon) :=
  inferInstanceAs (Decidable (|x - y| ≤ epsilon))

/-- C `std::copysign(x, y)`: magnitude of `x` with the sign of `y`
(the sign of a real zero is taken positive, as for `+0.0`). -/
def copysign (x y : ℝ) : ℝ := if 0 ≤ y then |x| else -|x|

/-- C `std::atan2(y, x)`: the mathematical two-argument arctangent. -/
def atan2 (y x : ℝ) : ℝ :=
  if 0 < x then Real.arctan (y / x)
  else if x < 0 then
    (if 0 ≤ y then Real.arctan (y / x) + Real.pi else Real.arctan (y / x) - Real.pi)
  else
    (if 0 < y then Real.pi / 2 else if y < 0 then -(Real.pi / 2) else 0)

/-- radians.hpp: `toRadians(deg) = (deg * PI) / 180`. -/
def toRadians (deg : ℝ) : ℝ := deg * PIdouble / 180

/-- radians.hpp: `toDegrees(rad) = (rad * 180) / PI`. -/
def toDegrees (rad : ℝ) : ℝ := rad * 180 / PIdouble

/-- geospatial.cpp helper: `squared(d) = d*d`. -/
def squared (d : ℝ) : ℝ := d * d

namespace geos

/-- geospatial.hpp `kss::math::geos::Point`: a 2-dimensional double point,
axis 0 holding the longitude and axis 1 the latitude. -/
structure Point where
  lon : ℝ
  lat : ℝ

/-- The latitude/longitude range invariant checked by `isValid` in
geospatial.cpp. -/
def Point.isValid (p : Point) : Prop :=
  -90 ≤ p.lat ∧ p.lat ≤ 90 ∧ -180 ≤ p.lon ∧ p.lon ≤ 180

/-- Constant `MIN_DIAMETER_OF_THE_EARTH_IN_M` from geospatial.cpp. -/
def MIN_DIAMETER : ℝ := 6370000

/-- Constant `DEFAULT_DIAMETER_OF_THE_EARTH_IN_M` from geospatial.hpp. -/
def DEFAULT_DIAMETER : ℝ := 6370986

/-- geospatial.cpp `kss::math::geos::distance`: the haversine computation.
The body is the straight-line translation of the C++ statements; the
in-code `contract::conditions` sanity check is a separate statement and is
the subject of claim C1. -/
def distance (p1 p2 : Point) (diameterOfTheEarth : ℝ) : ℝ :=
  let lat1 := p1.lat
  let lon1 := p1.lon
  let lat2 := p2.lat
  let lon2 := p2.lon
  let R := diameterOfTheEarth
  let phi1 := toRadians lat1
  let phi2 := toRadians lat2
  let deltaPhi := toRadians (lat2 - lat1)
  let deltaLambda := toRadians (lon2 - lon1)
  let a := squared (Real.sin (deltaPhi / 2)) +
    (Real.cos phi1 * Real.cos phi2) * squared (Real.sin (deltaLambda / 2))
  let c := 2 * atan2 (Real.sqrt a) (Real.sqrt (1 - a))
  R * c

/-- geospatial.cpp `kss::math::geos::areClose`:
`distance(p1, p2, diameterOfTheEarth) <= epsilon`.  (The in-code
`contract::parameters` check `epsilon > 0` guards the public entry; the
internal caller always passes a positive epsilon.) -/
def areClose (p1 p2 : Point) (epsilon diameterOfTheEarth : ℝ) : Prop :=
  distance p1 p2 diameterOfTheEarth ≤ epsilon

instance areClose.instDecidable (p1 p2 : Point) (epsilon diameterOfTheEarth : ℝ) :
    Decidable (areClose p1 p2 epsilon diameterOfTheEarth) :=
  inferInstanceAs (Decidable (distance p1 p2 diameterOfTheEarth ≤ epsilon))

end geos

/-- C `trunc`: rounding toward zero, as used by `std::fmod`. -/
def trunc (x : ℝ) : ℝ := if 0 ≤ x then (⌊x⌋ : ℤ) else (⌈x⌉ : ℤ)

/-- C `std::fmod(x, y) = x - trunc(x/y)*y`. -/
def fmod (x y : ℝ) : ℝ := x - y * trunc (x / y)

/-- geospatial.cpp helper: `normalize_longitude(lon) = fmod(lon+540, 360) - 180`. -/
def normalize_longitude (lon : ℝ) : ℝ := fmod (lon + 540) 360 - 180

namespace geos

/-- geospatial.cpp `kss::math::geos::intermediatePoint`: spherical
interpolation at fractional distance `f`, with the short circuit returning
`p1` when the points are within `2 * epsilon` of each other. -/
def intermediatePoint (p1 p2 : Point) (fractionalDistance diameterOfTheEarth : ℝ) :
    Point :=
  if areClose p1 p2 (DBL_EPSILON * 2) diameterOfTheEarth then p1
  else
    let f := fractionalDistance
    let R := diameterOfTheEarth
    let d := distance p1 p2 diameterOfTheEarth
    let phi1 := toRadians p1.lat
    let lambda1 := toRadians p1.lon
    let phi2 := toRadians p2.lat
    let lambda2 := toRadians p2.lon
    let delta := d / R
    let a := Real.sin ((1 - f) * delta) / Real.sin delta
    let b := Real.sin (f * delta) / Real.sin delta
    let x := a * Real.cos phi1 * Real.cos lambda1 + b * Real.cos phi2 * Real.cos lambda2
    let y := a * Real.cos phi1 * Real.sin lambda1 + b * Real.cos phi2 * Real.sin lambda2
    let z := a * Real.sin phi1 + b * Real.sin phi2
    let phii := atan2 z (Real.sqrt (squared x + squared y))
    let lambdai := atan2 y x
    { lon := normalize_longitude (toDegrees lambdai), lat := toDegrees phii }

/-- geospatial.hpp `kss::math::geos::pathLength`: the sum of the distances
of consecutive points; 0 for an empty or single-point path. -/
def pathLength : List Point → ℝ → ℝ
  | [], _ => 0
  | [_], _ => 0
  | p :: q :: rest, R => distance p q R + pathLength (q :: rest) R

/-- The two failure conditions of `pathIntermediatePoint`:
`std::invalid_argument`, and the defensive `std::runtime_error`
("It should not be possible to reach this point."). -/
inductive GeoErr where
  | invalidArgument
  | internalError

/-- The `while (it != endIt)` segment walk inside
geospatial.hpp `pathIntermediatePoint`, as a recursion over the remaining
points.  Falling off the end of the walk is the defensive
`std::runtime_error` branch, embedded as `GeoErr.internalError`. -/
def pathWalk (previousPoint : Point) (rest : List Point)
    (lengthToIntermediatePoint R : ℝ) : Except GeoErr Point :=
  match rest with
  | [] => .error .internalError
  | p :: more =>
    let dist := distance previousPoint p R
    let len := lengthToIntermediatePoint - dist
    if len = 0 then .ok p
    else if len < 0 then .ok (intermediatePoint previousPoint p ((len + dist) / dist) R)
    else pathWalk p more len R

/-- geospatial.hpp `kss::math::geos::pathIntermediatePoint`. -/
def pathIntermediatePoint (path : List Point)
    (fractionalDistance diameterOfTheEarth : ℝ) : Except GeoErr Point :=
  if fractionalDistance < 0 ∨ 1 < fractionalDistance then .error .invalidArgument
  else
    match path with
    | [] => .error .invalidArgument
    | p :: rest =>
      match rest with
      | [] => .ok p
      | _ :: _ =>
        if fractionalDistance = 0 then .ok p
        else if fractionalDistance = 1 then
          .ok ((p :: rest).getLast (List.cons_ne_nil p rest))
        else
          pathWalk p rest
            (pathLength (p :: rest) diameterOfTheEarth * fractionalDistance)
            diameterOfTheEarth

end geos

namespace geom

/-- line.hpp `kss::math::geom::Line<double, Dim>`: a pair of endpoints,
each embedded through its coordinate array `values()`. -/
structure Line (n : ℕ) where
  a : Fin n → ℝ
  b : Fin n → ℝ

/-- Elementwise difference, `kss::math::la::operator-` on coordinate arrays. -/
def vdiff {n : ℕ} (v1 v2 : Fin n → ℝ) : Fin n → ℝ := fun i => v1 i - v2 i

/-- vector.hpp `kss::math::la::dotProduct`. -/
def dotProduct {n : ℕ} (v1 v2 : Fin n → ℝ) : ℝ := ∑ i, v1 i * v2 i

/-- vector.hpp `kss::math::la::norm`: `sqrt(dotProduct(v, v))`. -/
def norm {n : ℕ} (v : Fin n → ℝ) : ℝ := Real.sqrt (dotProduct v v)

/-- line.hpp `kss::math::geom::distance(line, point)`: project, then take
the norm of the rejection.  The divisor `dotProduct(ba, ba)` is applied
without a degeneracy guard, exactly as in the source. -/
def lineDistance {n : ℕ} (l : Line n) (p : Fin n → ℝ) : ℝ :=
  let pa := vdiff p l.a
  let ba := vdiff l.b l.a
  let t := dotProduct pa ba / dotProduct ba ba
  norm (fun i => pa i - t * ba i)

/-- line.hpp `kss::math::geom::NoIntersection`. -/
inductive LineErr where
  | noIntersection

/-- line.hpp `kss::math::geom::_private::intersectUsingArrays` for
`Number = double`: the `closeTo` test uses the default epsilon
`numeric_limits<double>::epsilon()`. -/
def intersectUsingArrays (a b c d : Fin 2 → ℝ) : Except LineErr (Fin 2 → ℝ) :=
  let denom := a 0 * (d 1 - c 1) + b 0 * (c 1 - d 1) + d 0 * (b 1 - a 1) +
    c 0 * (a 1 - b 1)
  if closeTo denom 0 DBL_EPSILON then .error .noIntersection
  else
    let s := (a 0 * (d 1 - c 1) + c 0 * (a 1 - d 1) + d 0 * (c 1 - a 1)) / denom
    .ok (fun i => a i + s * (b i - a i))

/-- line.hpp `kss::math::geom::intersection` (same-type overload). -/
def intersection (l1 l2 : Line 2) : Except LineErr (Fin 2 → ℝ) :=
  intersectUsingArrays l1.a l1.b l2.a l2.b

/-- point.hpp (array-backed revision, the variant whose `operator==`
compares `_values == p._values`): a point is its `std::array` of values. -/
structure PointArr (α : Type) (n : ℕ) where
  values : Fin n → α

/-- Operator `==` of the array-backed point: `std::array` equality is
elementwise. -/
def PointArr.eq {α : Type} {n : ℕ} (p q : PointArr α n) : Prop :=
  p.values = q.values

/-- Operator `!=` of the array-backed point: `_values != p._values`. -/
def PointArr.ne {α : Type} {n : ℕ} (p q : PointArr α n) : Prop :=
  p.values ≠ q.values

/-- point.hpp (valarray-backed revision): a point is its `std::valarray`
of values viewed through a `VectorVA` of size `Dim`. -/
structure PointVA (α : Type) (n : ℕ) where
  values : Fin n → α

/-- Operator `==` of the valarray-backed point.  The source reads
`//return (_vector == p._vector);  return true;` — the elementwise
comparison is commented out and the operator returns `true`
unconditionally. -/
def PointVA.eq {α : Type} {n : ℕ} (_p _q : PointVA α n) : Prop :=
  True

/-- Operator `!=` of the valarray-backed point: `_vector != p._vector`,
which through `kss::math::la::operator!=` is `!std::equal(...)`. -/
def PointVA.ne {α : Type} {n : ℕ} (p q : PointVA α n) : Prop :=
  ¬ ∀ i : Fin n, p.values i = q.values i

end geom

namespace num

/-- The failure conditions of minimum.cpp `_minimum_value`:
`std::invalid_argument` and `kss::math::no_convergence`. -/
inductive MinErr where
  | invalidArgument
  | noConvergence

/-- The mutable locals of one `_minimum_value` invocation. -/
structure BrentState where
  a : ℝ
  b : ℝ
  v : ℝ
  w : ℝ
  x : ℝ
  e : ℝ
  d : ℝ
  fx : ℝ
  fv : ℝ
  fw : ℝ

/-- Constant `cgold = 1 - (sqrt(5) - 1)/2` from minimum.cpp. -/
def cgold : ℝ := 1 - (Real.sqrt 5 - 1) / 2

/-- The trial-point selection of one `_minimum_value` iteration: the
parabolic fit with its acceptance tests, falling back to the golden step.
Returns the new pair `(d, e)`. -/
def brentTrial (tol1 tol2 xm : ℝ) (s : BrentState) : ℝ × ℝ :=
  if |s.e| > tol1 then
    let r := (s.x - s.w) * (s.fx - s.fv)
    let q := (s.x - s.v) * (s.fx - s.fw)
    let p := (s.x - s.v) * q - (s.x - s.w) * r
    let q2 := 2 * (q - r)
    let p2 := if q2 > 0 then -p else p
    let q3 := |q2|
    if |p2| ≥ |0.5 * q3 * s.e| ∨ p2 ≤ q3 * (s.a - s.x) ∨ p2 ≥ q3 * (s.b - s.x)
    then
      let e2 := if s.x ≥ xm then s.a - s.x else s.b - s.x
      (cgold * e2, e2)
    else
      let d2 := p2 / q3
      let u := s.x + d2
      if u - s.a < tol2 ∨ s.b - u < tol2 then (copysign tol1 (xm - s.x), s.d)
      else (d2, s.d)
  else
    let e2 := if s.x ≥ xm then s.a - s.x else s.b - s.x
    (cgold * e2, e2)

/-- One full iteration body of the `_minimum_value` loop (after the
convergence test): evaluate the objective at the trial point and update the
bracket and the best-three bookkeeping. -/
def brentNext (fn : ℝ → ℝ) (tol1 tol2 xm : ℝ) (s : BrentState) : BrentState :=
  let de := brentTrial tol1 tol2 xm s
  let u := if |de.1| ≥ tol1 then s.x + de.1 else s.x + copysign tol1 de.1
  let fu := fn u
  if fu ≤ s.fx then
    { a := if u ≥ s.x then s.x else s.a, b := if u ≥ s.x then s.b else s.x,
      v := s.w, w := s.x, x := u, e := de.2, d := de.1,
      fx := fu, fv := s.fw, fw := s.fx }
  else
    let a2 := if u < s.x then u else s.a
    let b2 := if u < s.x then s.b else u
    if fu ≤ s.fw ∨ s.w = s.x then
      { a := a2, b := b2, v := s.w, w := u, x := s.x, e := de.2, d := de.1,
        fx := s.fx, fv := s.fw, fw := fu }
    else if fu ≤ s.fv ∨ s.v = s.x ∨ s.v = s.w then
      { a := a2, b := b2, v := u, w := s.w, x := s.x, e := de.2, d := de.1,
        fx := s.fx, fv := fu, fw := s.fw }
    else
      { a := a2, b := b2, v := s.v, w := s.w, x := s.x, e := de.2, d := de.1,
        fx := s.fx, fv := s.fv, fw := s.fw }

/-- The `for (i = 0; i < itmax; ++i)` loop of minimum.cpp `_minimum_value`,
fuel-indexed; running out of fuel is the `no_convergence` throw. -/
def brentLoop (fn : ℝ → ℝ) (tol1 tol2 : ℝ) : ℕ → BrentState → Except MinErr (ℝ × ℝ)
  | 0, _ => .error .noConvergence
  | fuel + 1, s =>
    let xm := 0.5 * (s.a + s.b)
    if |s.x - xm| ≤ tol2 - 0.5 * (s.b - s.a) then .ok (s.x, s.fx)
    else brentLoop fn tol1 tol2 fuel (brentNext fn tol1 tol2 xm s)

/-- Iteration cap `itmax = 100` from minimum.cpp. -/
def itmax : ℕ := 100

/-- minimum.cpp `_minimum_value` (double instantiation).  The C++ returns
the minimal function value and writes the location to `xmin&`; the
embedding returns the pair `(xmin, fmin)`. -/
def minimum_value (ax bx cx : ℝ) (fn : ℝ → ℝ) (tol1 fbx : ℝ) :
    Except MinErr (ℝ × ℝ) :=
  if ax ≥ bx ∨ bx ≥ cx then .error .invalidArgument
  else
    let fx := if fbx = DBL_MAX then fn bx else fbx
    brentLoop fn tol1 (2 * tol1) itmax
      { a := ax, b := cx, v := bx, w := bx, x := bx, e := 0, d := 0,
        fx := fx, fv := fx, fw := fx }

/-- minimum.hpp `kss::math::num::maximum_value`: negate the objective, call
`minimum_value` forwarding `fbx` unchanged, and negate the returned value
(the location is returned unchanged). -/
def maximum_value (ax bx cx : ℝ) (fn : ℝ → ℝ) (tol fbx : ℝ) :
    Except MinErr (ℝ × ℝ) :=
  (minimum_value ax bx cx (fun x => -(fn x)) tol fbx).map fun r => (r.1, -r.2)

end num

/-- A piecewise-linear objective used as a concrete input for the
minimization claims: strictly decreasing left of `7/10`, strictly
increasing right of it, with a steeper right slope. -/
def rampObjective (x : ℝ) : ℝ :=
  if x ≤ 7 / 10 then 7 / 10 - x else 10 * (x - 7 / 10)

end KssMath

end

namespace KssMath

/-- Arctangent is nonnegative on nonnegative inputs. -/
theorem arctan_nonneg_of_nonneg {z : ℝ} (hz : 0 ≤ z) : 0 ≤ Real.arctan z := by
  have hm := Real.arctan_strictMono.monotone hz
  rwa [Real.arctan_zero] at hm

/-- The function `atan2` is nonnegative whenever its first argument is. -/
theorem atan2_nonneg {y x : ℝ} (hy : 0 ≤ y) : 0 ≤ atan2 y x := by
  have hpi := Real.pi_pos
  have har := Real.neg_pi_div_two_lt_arctan (y / x)
  unfold atan2
  split_ifs with hc1 hc2 hc3 hc4 <;>
    first
      | exact arctan_nonneg_of_nonneg (div_nonneg hy (le_of_lt hc1))
      | linarith

/-- The function `atan2` is at most `π/2` when its second argument is nonnegative. -/
theorem atan2_le_pi_div_two {y x : ℝ} (hx : 0 ≤ x) : atan2 y x ≤ Real.pi / 2 := by
  have hpi := Real.pi_pos
  have har := Real.arctan_lt_pi_div_two (y / x)
  have har2 := Real.neg_pi_div_two_lt_arctan (y / x)
  unfold atan2
  split_ifs <;> linarith

/-- The haversine distance is nonnegative for a nonnegative sphere size. -/
theorem geos_distance_nonneg (p1 p2 : geos.Point) {R : ℝ} (hR : 0 ≤ R) :
    0 ≤ geos.distance p1 p2 R := by
  simp only [geos.distance]
  exact mul_nonneg hR (mul_nonneg (by norm_num) (atan2_nonneg (Real.sqrt_nonneg _)))

/-- The central-angle factor `c` of the haversine computation is at most `π`. -/
theorem haversine_angle_le_pi (a : ℝ) :
    2 * atan2 (Real.sqrt a) (Real.sqrt (1 - a)) ≤ Real.pi := by
  have h := atan2_le_pi_div_two (y := Real.sqrt a) (Real.sqrt_nonneg (1 - a))
  linarith

/-- The haversine distance is at most `R * π` for a nonnegative sphere size. -/
theorem geos_distance_le (p1 p2 : geos.Point) {R : ℝ} (hR : 0 ≤ R) :
    geos.distance p1 p2 R ≤ R * Real.pi := by
  simp only [geos.distance]
  exact mul_le_mul_of_nonneg_left (haversine_angle_le_pi _) hR

/-- On `[0, π/2)` the haversine reconstruction recovers its angle:
`atan2 (sqrt (sin θ * sin θ)) (sqrt (1 - sin θ * sin θ)) = θ`. -/
theorem haversine_atan2_eval {θ : ℝ} (h0 : 0 ≤ θ) (hlt : θ < Real.pi / 2) :
    atan2 (Real.sqrt (Real.sin θ * Real.sin θ))
      (Real.sqrt (1 - Real.sin θ * Real.sin θ)) = θ := by
  have hpi := Real.pi_pos
  have hsin : 0 ≤ Real.sin θ :=
    Real.sin_nonneg_of_nonneg_of_le_pi h0 (by linarith)
  have hcos : 0 < Real.cos θ :=
    Real.cos_pos_of_mem_Ioo ⟨by linarith, hlt⟩
  have hsq : Real.sqrt (Real.sin θ * Real.sin θ) = Real.sin θ :=
    Real.sqrt_mul_self hsin
  have hcsq : (1 : ℝ) - Real.sin θ * Real.sin θ = Real.cos θ * Real.cos θ := by
    nlinarith [Real.sin_sq_add_cos_sq θ]
  have hsq2 : Real.sqrt (1 - Real.sin θ * Real.sin θ) = Real.cos θ := by
    rw [hcsq]
    exact Real.sqrt_mul_self (le_of_lt hcos)
  rw [hsq, hsq2]
  unfold atan2
  rw [if_pos hcos, ← Real.tan_eq_sin_div_cos]
  exact Real.arctan_tan (by linarith) hlt

end KssMath

namespace KssMath

/-- Claim C1 counterexample evaluation: at the valid points (lat 0, lon 0) and
(lat 0, lon 179) with diameter argument 6371000, the haversine computation of
geospatial.cpp returns more than `diameter * pi / 2`, violating the claimed
postcondition (and the in-code `contract::conditions` check). -/
theorem geos_distance_violates_quarter_bound :
    geos.distance ⟨0, 0⟩ ⟨179, 0⟩ 6371000 > 6371000 * Real.pi / 2 := by
  have hpi6 := Real.pi_gt_d6
  have hpi2 := Real.pi_lt_d2
  have h0 : (0:ℝ) ≤ 179 * PIdouble / 180 / 2 := by norm_num [PIdouble]
  have hlt : (179:ℝ) * PIdouble / 180 / 2 < Real.pi / 2 := by
    norm_num [PIdouble]
    linarith
  simp only [geos.distance, toRadians, squared]
  norm_num [Real.sin_zero, Real.cos_zero]
  rw [haversine_atan2_eval h0 hlt]
  norm_num [PIdouble]
  linarith

end KssMath

namespace KssMath

/-- Claim C1 (amended): for valid points and a diameter argument above the
minimum, the haversine distance of geospatial.cpp is at most
`diameter * π` — the computation multiplies the full central angle (up to
`π`) by the `diameter` argument, so the half-circumference bound is
`diameter * π`, not the claimed `diameter * π / 2`. -/
theorem geos_distance_le_diameter_mul_pi (p1 p2 : geos.Point) (diameter : ℝ)
    (_h1 : p1.isValid) (_h2 : p2.isValid) (hd : geos.MIN_DIAMETER < diameter) :
    geos.distance p1 p2 diameter ≤ diameter * Real.pi := by
  have hpos : (0 : ℝ) ≤ diameter := by
    have h := hd
    rw [geos.MIN_DIAMETER] at h
    linarith
  exact geos_distance_le p1 p2 hpos

/-- Witness for `geos_distance_le_diameter_mul_pi` at a concrete input. -/
theorem geos_distance_le_diameter_mul_pi_witness :
    geos.Point.isValid ⟨0, 0⟩ ∧ geos.Point.isValid ⟨1, 1⟩ ∧
    geos.MIN_DIAMETER < (6371000 : ℝ) ∧
    geos.distance ⟨0, 0⟩ ⟨1, 1⟩ 6371000 ≤ 6371000 * Real.pi :=
  ⟨by norm_num [geos.Point.isValid], by norm_num [geos.Point.isValid],
   by norm_num [geos.MIN_DIAMETER],
   geos_distance_le_diameter_mul_pi ⟨0, 0⟩ ⟨1, 1⟩ 6371000
     (by norm_num [geos.Point.isValid]) (by norm_num [geos.Point.isValid])
     (by norm_num [geos.MIN_DIAMETER])⟩

/-- Claim C6: `intersection(l, l)` always takes the `NoIntersection` branch:
with both lines equal the determinant `denom` is exactly zero, hence within
the `closeTo` epsilon. -/
theorem intersection_self_noIntersection (l : geom.Line 2) :
    geom.intersection l l = .error .noIntersection := by
  unfold geom.intersection geom.intersectUsingArrays
  have hzero : l.a 0 * (l.b 1 - l.a 1) + l.b 0 * (l.a 1 - l.b 1) +
      l.b 0 * (l.b 1 - l.a 1) + l.a 0 * (l.a 1 - l.b 1) = 0 := by ring
  have hclose : closeTo
      (l.a 0 * (l.b 1 - l.a 1) + l.b 0 * (l.a 1 - l.b 1) +
        l.b 0 * (l.b 1 - l.a 1) + l.a 0 * (l.a 1 - l.b 1)) 0 DBL_EPSILON := by
    unfold closeTo DBL_EPSILON
    rw [hzero]
    norm_num
  rw [if_pos hclose]

/-- Claim C9: in `geom::distance(line, point)` the divisor
`dotProduct(b - a, b - a)` is zero exactly when the two endpoints of the
line coincide; for a non-degenerate line it is nonzero (and positive), so
the unguarded division is well defined. -/
theorem lineDistance_divisor_zero_iff {n : ℕ} (l : geom.Line n) :
    (geom.dotProduct (geom.vdiff l.b l.a) (geom.vdiff l.b l.a) = 0 ↔ l.a = l.b) ∧
    (l.a ≠ l.b → 0 < geom.dotProduct (geom.vdiff l.b l.a) (geom.vdiff l.b l.a)) := by
  have hnn : ∀ i : Fin n, 0 ≤ geom.vdiff l.b l.a i * geom.vdiff l.b l.a i :=
    fun i => mul_self_nonneg _
  have hiff : geom.dotProduct (geom.vdiff l.b l.a) (geom.vdiff l.b l.a) = 0 ↔
      l.a = l.b := by
    constructor
    · intro h
      unfold geom.dotProduct at h
      funext i
      have hterm := (Finset.sum_eq_zero_iff_of_nonneg
        (fun i _ => hnn i)).mp h i (Finset.mem_univ i)
      have hv : geom.vdiff l.b l.a i = 0 := by
        exact mul_self_eq_zero.mp hterm
      unfold geom.vdiff at hv
      linarith
    · intro h
      unfold geom.dotProduct geom.vdiff
      rw [h]
      simp
  refine ⟨hiff, fun hne => ?_⟩
  rcases lt_or_eq_of_le (Finset.sum_nonneg fun i _ => hnn i) with hlt | heq
  · exact hlt
  · exact absurd (hiff.mp heq.symm) hne

/-- Claim C2: in the valarray-backed revision of point.hpp, `operator==`
returns `true` unconditionally (the elementwise comparison is commented
out), so it holds for points with different coordinates, and `operator!=`
is not the negation of `operator==`.  Evaluated at the concrete points
(0,0) and (1,1). -/
theorem pointVA_equality_code_bug :
    geom.PointVA.eq (⟨fun _ => 0⟩ : geom.PointVA ℕ 2) ⟨fun _ => 1⟩ ∧
    (⟨fun _ => 0⟩ : geom.PointVA ℕ 2).values ≠
      (⟨fun _ => 1⟩ : geom.PointVA ℕ 2).values ∧
    geom.PointVA.ne (⟨fun _ => 0⟩ : geom.PointVA ℕ 2) ⟨fun _ => 1⟩ ∧
    ¬ (geom.PointVA.ne (⟨fun _ => 0⟩ : geom.PointVA ℕ 2) ⟨fun _ => 1⟩ ↔
        ¬ geom.PointVA.eq (⟨fun _ => 0⟩ : geom.PointVA ℕ 2) ⟨fun _ => 1⟩) := by
  refine ⟨trivial, ?_, ?_, ?_⟩
  · intro h
    have h0 := congrFun h 0
    simp at h0
  · intro h
    have h0 := h 0
    simp at h0
  · intro hiff
    have hne : geom.PointVA.ne (⟨fun _ => 0⟩ : geom.PointVA ℕ 2) ⟨fun _ => 1⟩ := by
      intro h
      have h0 := h 0
      simp at h0
    exact (hiff.mp hne) trivial

/-- The array-backed revision of point.hpp does satisfy claim C2:
equality is elementwise and `!=` is its negation. -/
theorem pointArr_equality_elementwise {α : Type} {n : ℕ} (p q : geom.PointArr α n) :
    (geom.PointArr.eq p q ↔ ∀ i, p.values i = q.values i) ∧
    (geom.PointArr.ne p q ↔ ¬ geom.PointArr.eq p q) := by
  constructor
  · unfold geom.PointArr.eq
    constructor
    · intro h i
      rw [h]
    · intro h
      funext i
      exact h i
  · unfold geom.PointArr.ne geom.PointArr.eq
    exact Iff.rfl

/-- Claim C8: for a nonempty path, `pathIntermediatePoint` at fractional
distance 0 returns the first point and at 1 returns the last point, for
every diameter argument, via the early-return branches (the accumulating
walk is not reached). -/
theorem pathIntermediatePoint_endpoints (p : geos.Point) (rest : List geos.Point)
    (D : ℝ) :
    geos.pathIntermediatePoint (p :: rest) 0 D = .ok p ∧
    geos.pathIntermediatePoint (p :: rest) 1 D =
      .ok ((p :: rest).getLast (List.cons_ne_nil p rest)) := by
  constructor
  · cases rest with
    | nil => norm_num [geos.pathIntermediatePoint]
    | cons q tail => norm_num [geos.pathIntermediatePoint]
  · cases rest with
    | nil => norm_num [geos.pathIntermediatePoint, List.getLast_singleton]
    | cons q tail => norm_num [geos.pathIntermediatePoint]

end KssMath

namespace KssMath

/-- The function `pathLength` is a sum of haversine distances, hence nonnegative. -/
theorem pathLength_nonneg : ∀ (path : List geos.Point) (R : ℝ), 0 ≤ R →
    0 ≤ geos.pathLength path R := by
  intro path
  induction path with
  | nil => intro R hR; simp [geos.pathLength]
  | cons p rest ih =>
    intro R hR
    cases rest with
    | nil => simp [geos.pathLength]
    | cons q tail =>
      have h1 := geos_distance_nonneg p q hR
      have h2 := ih R hR
      simp only [geos.pathLength]
      simp only [geos.pathLength] at h2
      linarith

/-- The segment walk of `pathIntermediatePoint` resolves inside the loop
whenever the requested length does not exceed the length of the remaining
path: the defensive fall-through is unreachable. -/
theorem pathWalk_ok : ∀ (rest : List geos.Point) (prev : geos.Point) (len R : ℝ),
    rest ≠ [] → 0 ≤ R → len ≤ geos.pathLength (prev :: rest) R →
    ∃ pt, geos.pathWalk prev rest len R = .ok pt := by
  intro rest
  induction rest with
  | nil => intro prev len R hne; exact absurd rfl hne
  | cons p more ih =>
    intro prev len R _hne hR hlen
    by_cases h0 : len - geos.distance prev p R = 0
    · exact ⟨p, by simp [geos.pathWalk, h0]⟩
    · by_cases h1 : len - geos.distance prev p R < 0
      · refine ⟨geos.intermediatePoint prev p
          ((len - geos.distance prev p R + geos.distance prev p R) /
            geos.distance prev p R) R, ?_⟩
        simp only [geos.pathWalk]
        rw [if_neg h0, if_pos h1]
      · have h2 : 0 < len - geos.distance prev p R :=
          lt_of_le_of_ne (not_lt.mp h1) (Ne.symm h0)
        cases more with
        | nil =>
          exfalso
          have hlen2 : geos.pathLength (prev :: [p]) R = geos.distance prev p R := by
            simp [geos.pathLength]
          rw [hlen2] at hlen
          linarith
        | cons q tail =>
          have hsum : geos.pathLength (prev :: p :: q :: tail) R =
              geos.distance prev p R + geos.pathLength (p :: q :: tail) R := by
            simp [geos.pathLength]
          obtain ⟨pt, hpt⟩ := ih p (len - geos.distance prev p R) R
            (by simp) hR (by rw [hsum] at hlen; linarith)
          refine ⟨pt, ?_⟩
          simp only [geos.pathWalk, h0, h1, if_false]
          exact hpt

/-- Claim C5: for a nonempty path, fractional distance in `[0,1]` and a
diameter above the minimum, `pathIntermediatePoint` returns a point: the
defensive branch after the segment walk (`GeoErr.internalError`) is never
executed. -/
theorem pathIntermediatePoint_total (path : List geos.Point) (f D : ℝ)
    (hne : path ≠ []) (h0 : 0 ≤ f) (h1 : f ≤ 1) (hD : geos.MIN_DIAMETER < D) :
    ∃ pt, geos.pathIntermediatePoint path f D = .ok pt := by
  have hDpos : (0 : ℝ) ≤ D := by
    rw [geos.MIN_DIAMETER] at hD
    linarith
  obtain ⟨p, rest, rfl⟩ : ∃ p rest, path = p :: rest := by
    cases path with
    | nil => exact absurd rfl hne
    | cons p rest => exact ⟨p, rest, rfl⟩
  have hrange : ¬ (f < 0 ∨ 1 < f) := by
    rintro (h | h) <;> linarith
  cases rest with
  | nil =>
    exact ⟨p, by simp [geos.pathIntermediatePoint, hrange]⟩
  | cons q tail =>
    by_cases hf0 : f = 0
    · exact ⟨p, by simp [geos.pathIntermediatePoint, hrange, hf0]⟩
    · by_cases hf1 : f = 1
      · exact ⟨(p :: q :: tail).getLast (List.cons_ne_nil p (q :: tail)),
          by norm_num [geos.pathIntermediatePoint, hf0, hf1]⟩
      · have hwalk := pathWalk_ok (q :: tail) p
          (geos.pathLength (p :: q :: tail) D * f) D (by simp) hDpos
          (mul_le_of_le_one_right (pathLength_nonneg _ D hDpos) h1)
        obtain ⟨pt, hpt⟩ := hwalk
        refine ⟨pt, ?_⟩
        simp only [geos.pathIntermediatePoint, hrange, if_false, hf0, hf1]
        exact hpt

/-- Witness for `pathIntermediatePoint_total` at a concrete input. -/
theorem pathIntermediatePoint_total_witness :
    ([⟨0, 0⟩, ⟨1, 1⟩] : List geos.Point) ≠ [] ∧ (0 : ℝ) ≤ 1 / 2 ∧ (1 / 2 : ℝ) ≤ 1 ∧
    geos.MIN_DIAMETER < (6371000 : ℝ) ∧
    ∃ pt, geos.pathIntermediatePoint [⟨0, 0⟩, ⟨1, 1⟩] (1 / 2) 6371000 = .ok pt :=
  ⟨by simp, by norm_num, by norm_num, by norm_num [geos.MIN_DIAMETER],
   pathIntermediatePoint_total [⟨0, 0⟩, ⟨1, 1⟩] (1 / 2) 6371000 (by simp)
     (by norm_num) (by norm_num) (by norm_num [geos.MIN_DIAMETER])⟩

end KssMath

namespace KssMath

/-- The loop `brentLoop` can only end in success or `noConvergence`: the
`invalidArgument` failure of `minimum_value` cannot arise from the loop. -/
theorem brentLoop_ne_invalid : ∀ (fuel : ℕ) (fn : ℝ → ℝ) (t1 t2 : ℝ)
    (s : num.BrentState),
    num.brentLoop fn t1 t2 fuel s ≠ .error .invalidArgument := by
  intro fuel
  induction fuel with
  | zero => intro fn t1 t2 s; simp [num.brentLoop]
  | succ n ih =>
    intro fn t1 t2 s
    simp only [num.brentLoop]
    split
    · simp
    · exact ih fn t1 t2 _

/-- Claim C7: `minimum_value` fails with `invalidArgument` exactly on
non-increasing bracket triples; the failure is decided before `fn` is
consulted (the error outcome is the same for every objective), and a
strictly increasing triple never produces `invalidArgument`. -/
theorem minimum_value_bracket_check (ax bx cx tol fbx : ℝ) (fn : ℝ → ℝ) :
    (¬ (ax < bx ∧ bx < cx) →
      num.minimum_value ax bx cx fn tol fbx = .error .invalidArgument ∧
      ∀ gn : ℝ → ℝ,
        num.minimum_value ax bx cx gn tol fbx = .error .invalidArgument) ∧
    (ax < bx → bx < cx →
      num.minimum_value ax bx cx fn tol fbx ≠ .error .invalidArgument) := by
  constructor
  · intro hbad
    have hcond : ax ≥ bx ∨ bx ≥ cx := by
      by_contra hc
      push_neg at hc
      exact hbad ⟨hc.1, hc.2⟩
    constructor
    · unfold num.minimum_value
      rw [if_pos hcond]
    · intro gn
      unfold num.minimum_value
      rw [if_pos hcond]
  · intro h1 h2
    have hcond : ¬ (ax ≥ bx ∨ bx ≥ cx) := by
      push_neg
      exact ⟨h1, h2⟩
    simp only [num.minimum_value, if_neg hcond]
    exact brentLoop_ne_invalid _ _ _ _ _

/-- Witness for `minimum_value_bracket_check`: the unordered triple
(1, 0, 2) fails with `invalidArgument`; the ordered triple (0, 1, 2) does
not. -/
theorem minimum_value_bracket_check_witness :
    num.minimum_value 1 0 2 (fun x => x) 1 DBL_MAX = .error .invalidArgument ∧
    num.minimum_value 0 1 2 (fun x => x) 1 DBL_MAX ≠ .error .invalidArgument :=
  ⟨((minimum_value_bracket_check 1 0 2 1 DBL_MAX (fun x => x)).1 (by norm_num)).1,
   (minimum_value_bracket_check 0 1 2 1 DBL_MAX (fun x => x)).2 (by norm_num)
     (by norm_num)⟩

/-- Evaluation helper: when the very first convergence test of the loop
passes, `minimum_value` returns `bx` together with the initial `fx`. -/
theorem minimum_value_first_iter (ax bx cx tol fbx : ℝ) (fn : ℝ → ℝ)
    (hv : ¬ (ax ≥ bx ∨ bx ≥ cx))
    (hconv : |bx - 0.5 * (ax + cx)| ≤ 2 * tol - 0.5 * (cx - ax)) :
    num.minimum_value ax bx cx fn tol fbx =
      .ok (bx, if fbx = DBL_MAX then fn bx else fbx) := by
  unfold num.minimum_value
  rw [if_neg hv, show num.itmax = 99 + 1 from rfl]
  simp only [num.brentLoop]
  rw [if_pos hconv]

/-- Claim C3 (amended): seeding `minimum_value` with `fbx = fn(bx)` is
equivalent to omitting it (the sentinel), and seeding `maximum_value` with
`fbx = -(fn(bx))` — the value of the negated objective that the inner
minimization works on — is equivalent to omitting it. -/
theorem minimum_value_fbx_seeding :
    (∀ (ax bx cx tol : ℝ) (fn : ℝ → ℝ), fn bx ≠ DBL_MAX →
      num.minimum_value ax bx cx fn tol (fn bx) =
        num.minimum_value ax bx cx fn tol DBL_MAX) ∧
    (∀ (ax bx cx tol : ℝ) (fn : ℝ → ℝ), -(fn bx) ≠ DBL_MAX →
      num.maximum_value ax bx cx fn tol (-(fn bx)) =
        num.maximum_value ax bx cx fn tol DBL_MAX) := by
  have hmin : ∀ (ax bx cx tol : ℝ) (fn : ℝ → ℝ),
      num.minimum_value ax bx cx fn tol (fn bx) =
        num.minimum_value ax bx cx fn tol DBL_MAX := by
    intro ax bx cx tol fn
    simp only [num.minimum_value, ite_self, eq_self_iff_true, if_true]
  refine ⟨fun ax bx cx tol fn _h => hmin ax bx cx tol fn,
    fun ax bx cx tol fn _h => ?_⟩
  unfold num.maximum_value
  have h := hmin ax bx cx tol (fun x => -(fn x))
  rw [h]

/-- Witness for `minimum_value_fbx_seeding` at a concrete input. -/
theorem minimum_value_fbx_seeding_witness :
    ((fun _ : ℝ => (5 : ℝ)) 1 ≠ DBL_MAX ∧
      num.minimum_value 0 1 2 (fun _ => (5 : ℝ)) 1 ((fun _ : ℝ => (5 : ℝ)) 1) =
        num.minimum_value 0 1 2 (fun _ => (5 : ℝ)) 1 DBL_MAX) ∧
    (-((fun _ : ℝ => (5 : ℝ)) 1) ≠ DBL_MAX ∧
      num.maximum_value 0 1 2 (fun _ => (5 : ℝ)) 1 (-((fun _ : ℝ => (5 : ℝ)) 1)) =
        num.maximum_value 0 1 2 (fun _ => (5 : ℝ)) 1 DBL_MAX) :=
  ⟨⟨by norm_num [DBL_MAX],
    minimum_value_fbx_seeding.1 0 1 2 1 (fun _ => (5 : ℝ))
      (by norm_num [DBL_MAX])⟩,
   ⟨by norm_num [DBL_MAX],
    minimum_value_fbx_seeding.2 0 1 2 1 (fun _ => (5 : ℝ))
      (by norm_num [DBL_MAX])⟩⟩

/-- Claim C3 counterexample: seeding `maximum_value` with the known value
`f(bx)` of its own objective (as the claim states) changes the returned
function value, because the forwarded `fbx` is interpreted as a value of
the negated objective.  At `f = const 5`, bracket (-1, 0, 1), tolerance 1,
the seeded call returns value -5 while the unseeded call returns 5. -/
theorem maximum_value_fbx_counterexample :
    num.maximum_value (-1) 0 1 (fun _ => (5 : ℝ)) 1 ((fun _ => (5 : ℝ)) 0) ≠
      num.maximum_value (-1) 0 1 (fun _ => (5 : ℝ)) 1 DBL_MAX := by
  have hne5 : (5 : ℝ) ≠ DBL_MAX := by norm_num [DBL_MAX]
  have hv : ¬ ((-1 : ℝ) ≥ 0 ∨ (0 : ℝ) ≥ 1) := by norm_num
  have hconv : |(0 : ℝ) - 0.5 * (-1 + 1)| ≤ 2 * 1 - 0.5 * (1 - (-1)) := by norm_num
  show num.maximum_value (-1) 0 1 (fun _ => (5 : ℝ)) 1 5 ≠
    num.maximum_value (-1) 0 1 (fun _ => (5 : ℝ)) 1 DBL_MAX
  unfold num.maximum_value
  rw [minimum_value_first_iter (-1) 0 1 1 5 _ hv hconv,
    minimum_value_first_iter (-1) 0 1 1 DBL_MAX _ hv hconv]
  rw [if_neg hne5, if_pos rfl]
  intro h
  simp only [Except.map, Except.ok.injEq, Prod.mk.injEq] at h
  have h2 := h.2
  norm_num at h2

/-- One iteration of the loop body preserves `fx = fn x` and never
increases `fx`. -/
theorem brentNext_fx_inv (fn : ℝ → ℝ) (t1 t2 xm : ℝ) (s : num.BrentState)
    (h : s.fx = fn s.x) :
    (num.brentNext fn t1 t2 xm s).fx = fn (num.brentNext fn t1 t2 xm s).x ∧
    (num.brentNext fn t1 t2 xm s).fx ≤ s.fx := by
  simp only [num.brentNext]
  split_ifs <;>
    first
      | exact ⟨rfl, by assumption⟩
      | exact ⟨h, le_refl _⟩

/-- Whenever the loop returns successfully from a state with a consistent
`fx`, the returned pair `(xr, fr)` satisfies `fr = fn xr` and
`fr ≤ s.fx`. -/
theorem brentLoop_ok_inv : ∀ (fuel : ℕ) (fn : ℝ → ℝ) (t1 t2 : ℝ)
    (s : num.BrentState) (xr fr : ℝ), s.fx = fn s.x →
    num.brentLoop fn t1 t2 fuel s = .ok (xr, fr) → fr = fn xr ∧ fr ≤ s.fx := by
  intro fuel
  induction fuel with
  | zero => intro fn t1 t2 s xr fr hs h; simp [num.brentLoop] at h
  | succ n ih =>
    intro fn t1 t2 s xr fr hs h
    simp only [num.brentLoop] at h
    split at h
    · have hx : s.x = xr ∧ s.fx = fr := by simpa using h
      obtain ⟨hx1, hx2⟩ := hx
      rw [← hx2, ← hx1]
      exact ⟨hs, le_refl s.fx⟩
    · obtain ⟨hinv1, hinv2⟩ := brentNext_fx_inv fn t1 t2 (0.5 * (s.a + s.b)) s hs
      obtain ⟨g1, g2⟩ := ih fn t1 t2 _ xr fr hinv1 h
      exact ⟨g1, le_trans g2 hinv2⟩

/-- Claim C4 (amended): whenever `minimum_value` (with `fbx` omitted)
returns normally, the returned pair `(xmin, fmin)` satisfies
`fmin = fn xmin` and `fmin ≤ fn bx`.  The returned location is not in
general within the given tolerance of the true minimizer (see the
counterexample). -/
theorem minimum_value_ok_result (ax bx cx tol : ℝ) (fn : ℝ → ℝ) (xr fr : ℝ)
    (h : num.minimum_value ax bx cx fn tol DBL_MAX = .ok (xr, fr)) :
    fr = fn xr ∧ fr ≤ fn bx := by
  unfold num.minimum_value at h
  by_cases hv : ax ≥ bx ∨ bx ≥ cx
  · rw [if_pos hv] at h
    exact absurd h (by simp)
  · rw [if_neg hv] at h
    simp only [eq_self_iff_true, if_true] at h
    exact brentLoop_ok_inv num.itmax fn tol (2 * tol) _ xr fr rfl h

/-- Witness for `minimum_value_ok_result` at a concrete input: the identity
objective on the bracket (-1, 0, 1) with tolerance 1 converges at once to
(0, 0). -/
theorem minimum_value_ok_result_witness :
    num.minimum_value (-1) 0 1 (fun x => x) 1 DBL_MAX = .ok (0, 0) ∧
    (0 : ℝ) = (fun x : ℝ => x) 0 ∧ (0 : ℝ) ≤ (fun x : ℝ => x) 0 := by
  have heval : num.minimum_value (-1) 0 1 (fun x : ℝ => x) 1 DBL_MAX = .ok (0, 0) := by
    rw [minimum_value_first_iter (-1) 0 1 1 DBL_MAX (fun x : ℝ => x)
      (by norm_num) (by norm_num)]
    rw [if_pos rfl]
  exact ⟨heval, minimum_value_ok_result (-1) 0 1 1 (fun x : ℝ => x) 0 0 heval⟩

/-- Claim C4 counterexample: `rampObjective` is strictly unimodal on the
bracket (-1, 0, 1) with unique minimizer 7/10, yet `minimum_value` with
tolerance 3/5 converges immediately to location 0 — which is 7/10 away
from the true minimizer, more than the tolerance. -/
theorem minimum_value_tolerance_counterexample :
    (∀ y z : ℝ, y < z → z ≤ 7 / 10 → rampObjective z < rampObjective y) ∧
    (∀ y z : ℝ, 7 / 10 ≤ y → y < z → rampObjective y < rampObjective z) ∧
    (∀ y : ℝ, y ≠ 7 / 10 → rampObjective (7 / 10) < rampObjective y) ∧
    num.minimum_value (-1) 0 1 rampObjective (3 / 5) DBL_MAX = .ok (0, 7 / 10) ∧
    ¬ (|(0 : ℝ) - 7 / 10| ≤ 3 / 5) := by
  refine ⟨?_, ?_, ?_, ?_, ?_⟩
  · intro y z hyz hz
    unfold rampObjective
    rw [if_pos hz, if_pos (le_trans (le_of_lt hyz) hz)]
    linarith
  · intro y z hy hyz
    unfold rampObjective
    split_ifs with h1 h2 <;> linarith
  · intro y hy
    unfold rampObjective
    rw [if_pos (le_refl (7 / 10 : ℝ))]
    split_ifs with h1
    · have hlt : y < 7 / 10 := lt_of_le_of_ne h1 hy
      linarith
    · have hgt : (7 / 10 : ℝ) < y := not_le.mp h1
      linarith
  · rw [minimum_value_first_iter (-1) 0 1 (3 / 5) DBL_MAX rampObjective
      (by norm_num) (by norm_num)]
    rw [if_pos rfl]
    norm_num [rampObjective]
  · rw [show (0 : ℝ) - 7 / 10 = -(7 / 10) by norm_num, abs_neg,
      abs_of_nonneg (by norm_num : (0 : ℝ) ≤ 7 / 10)]
    norm_num

end KssMath

namespace KssMath

/-- Witness for `lineDistance_divisor_zero_iff`: the divisor is zero for a
degenerate 2D line and positive for a non-degenerate one. -/
theorem lineDistance_divisor_zero_iff_witness :
    geom.dotProduct
        (geom.vdiff (geom.Line.mk (fun _ => (0 : ℝ)) (fun _ => 0) : geom.Line 2).b
          (geom.Line.mk (fun _ => (0 : ℝ)) (fun _ => 0) : geom.Line 2).a)
        (geom.vdiff (geom.Line.mk (fun _ => (0 : ℝ)) (fun _ => 0) : geom.Line 2).b
          (geom.Line.mk (fun _ => (0 : ℝ)) (fun _ => 0) : geom.Line 2).a) = 0 ∧
    0 < geom.dotProduct
        (geom.vdiff (geom.Line.mk (fun _ => (0 : ℝ)) (fun _ => 1) : geom.Line 2).b
          (geom.Line.mk (fun _ => (0 : ℝ)) (fun _ => 1) : geom.Line 2).a)
        (geom.vdiff (geom.Line.mk (fun _ => (0 : ℝ)) (fun _ => 1) : geom.Line 2).b
          (geom.Line.mk (fun _ => (0 : ℝ)) (fun _ => 1) : geom.Line 2).a) :=
  ⟨(lineDistance_divisor_zero_iff
      (geom.Line.mk (fun _ => (0 : ℝ)) (fun _ => 0) : geom.Line 2)).1.mpr rfl,
   (lineDistance_divisor_zero_iff
      (geom.Line.mk (fun _ => (0 : ℝ)) (fun _ => 1) : geom.Line 2)).2
     (fun h => by
       have h0 := congrFun h 0
       norm_num at h0)⟩

end KssMath
